import Mathlib

/-!
Verification of the soledad client streaming crypto module
(`client/src/leap/soledad/client/_crypto.py`) and the filesystem blobs
backend (`server/src/leap/soledad/server/_blobs.py`).

Byte strings are modelled as `List Nat` with every element below 256.
Python exceptions are modelled by the inductive `PyErr`; fallible
operations return `Except PyErr`.

The external `cryptography` library AES-256-GCM engine is modelled at its
interface: `update` is an XOR with a key/iv-determined stream (identical
for the encryptor and the decryptor, as in any CTR-based mode), and the
16-byte tag is a deterministic function of (key, iv, associated data,
ciphertext).  AES internals live outside this repository; only these
interface-level properties are used by the source.  Likewise
`hashlib.sha256` is modelled as a deterministic 32-byte digest, with the
HMAC construction of the `hmac` module reproduced faithfully around it.

`struct` packing of the preamble follows the native layout of
`struct.Struct("2sbbQ16s255p255pQ")` on x86-64: little-endian `Q`, 4 pad
bytes after `2sbb`, and 2 pad bytes before the trailing `Q`, giving
struct sizes 542 (legacy) and 552 (current).
-/

set_option maxRecDepth 4096

/-! ## Definitions translated from the source -/

/-- Python exceptions raised (or named by the specification) around the
crypto module.  `ConfigurationError`, `KeyLengthError` and
`TagVerificationError` appear in the specification only; the source never
constructs them. -/
inductive PyErr where
  | EncryptionDecryptionError (msg : String)
  | InvalidBlobPlain
  | InvalidBlob (msg : String)
  | InvalidBlobSize (n : Nat)
  | NotImplementedError
  | AssertionError
  | InvalidTag
  | IndexError
  | ValueError
  | ConfigurationError (msg : String)
  | KeyLengthError
  | TagVerificationError
deriving DecidableEq

/-- All elements of a byte string are bytes. -/
def isBytes (l : List Nat) : Prop := ∀ b ∈ l, b < 256

instance (l : List Nat) : Decidable (isBytes l) := by
  unfold isBytes; infer_instance

/-- Python `str.isspace` characters relevant to `str.split()`. -/
def isPySpace (b : Nat) : Bool :=
  b = 32 || b = 9 || b = 10 || b = 13 || b = 11 || b = 12

/-- Python `str.split()` with no argument: split on runs of whitespace,
discarding empty fields. -/
def splitWs (s : List Nat) : List (List Nat) :=
  match s with
  | [] => []
  | b :: rest =>
    if isPySpace b then splitWs rest
    else (b :: rest.takeWhile (fun c => !isPySpace c)) ::
      splitWs (rest.dropWhile (fun c => !isPySpace c))
termination_by s.length
decreasing_by
  · simp
  · have h := (List.dropWhile_suffix (fun c => !isPySpace c) (l := rest)).length_le
    simp
    omega

/-- Value of a base64 urlsafe alphabet index (0..63) as an ASCII byte. -/
def b64char (v : Nat) : Nat :=
  if v < 26 then 65 + v
  else if v < 52 then 97 + (v - 26)
  else if v < 62 then 48 + (v - 52)
  else if v = 62 then 45
  else 95

/-- Index of a base64 urlsafe alphabet ASCII byte. -/
def b64val (c : Nat) : Nat :=
  if 65 ≤ c ∧ c ≤ 90 then c - 65
  else if 97 ≤ c ∧ c ≤ 122 then c - 71
  else if 48 ≤ c ∧ c ≤ 57 then c + 4
  else if c = 45 then 62
  else 63

/-- `base64.urlsafe_b64encode`. -/
def b64encode : List Nat → List Nat
  | a :: b :: c :: rest =>
      b64char (a / 4) :: b64char (a % 4 * 16 + b / 16) ::
      b64char (b % 16 * 4 + c / 64) :: b64char (c % 64) :: b64encode rest
  | [a, b] => [b64char (a / 4), b64char (a % 4 * 16 + b / 16), b64char (b % 16 * 4), 61]
  | [a] => [b64char (a / 4), b64char (a % 4 * 16), 61, 61]
  | [] => []

/-- `base64.urlsafe_b64decode` on well-padded input (total function;
byte 61 is the pad character). -/
def b64decode : List Nat → List Nat
  | a :: b :: c :: d :: rest =>
      if c = 61 then [b64val a * 4 + b64val b / 16]
      else if d = 61 then [b64val a * 4 + b64val b / 16, b64val b % 16 * 16 + b64val c / 4]
      else (b64val a * 4 + b64val b / 16) :: (b64val b % 16 * 16 + b64val c / 4) ::
        (b64val c % 4 * 64 + b64val d) :: b64decode rest
  | _ => []

/-- Bytes allowed in urlsafe base64 output (alphabet plus pad). -/
def isB64Byte (b : Nat) : Bool :=
  (65 ≤ b && b ≤ 90) || (97 ≤ b && b ≤ 122) || (48 ≤ b && b ≤ 57) ||
    b = 45 || b = 95 || b = 61

/-- The payload write loop of `CryptoStreamBodyProducer._writeloop`: read
chunks of `readSize = 2 ** 16` characters and base64-decode each chunk. -/
def decodeChunks (s : List Nat) : List Nat :=
  if h : s = [] then []
  else b64decode (s.take 65536) ++ decodeChunks (s.drop 65536)
termination_by s.length
decreasing_by
  have hp : 0 < s.length := List.length_pos.mpr h
  simp
  omega

def SECRET_LENGTH : Nat := 64

/-- The `SEPARATOR` byte, an ASCII space. -/
def SEPARATOR : Nat := 32

def BLOB_SIGNATURE_MAGIC : List Nat := [0x13, 0x37]

def ENC_SCHEME_symkey : Nat := 1

def ENC_METHOD_aes_256_ctr : Nat := 1

def ENC_METHOD_aes_256_gcm : Nat := 2

/-- Little-endian bytes of a native `Q` (u64) struct field. -/
def qBytes (n : Nat) : List Nat := (List.range 8).map fun k => n / 256 ^ k % 256

def unpackQ (s : List Nat) : Nat := s.foldr (fun b acc => acc * 256 + b) 0

/-- An `Ns` fixed-width bytes field: truncate or zero-pad to the width. -/
def fixedBytes (w : Nat) (s : List Nat) : List Nat :=
  s.take w ++ List.replicate (w - s.length) 0

/-- A `255p` Pascal-string field: a length byte, then 254 content bytes. -/
def pascal255 (s : List Nat) : List Nat :=
  min s.length 254 :: (s.take 254 ++ List.replicate (254 - min s.length 254) 0)

def unpackP (s : List Nat) : List Nat := s.tail.take (min (s.headD 0) 254)

/-- `LEGACY_PACMAN.pack` for `struct.Struct("2sbbQ16s255p255p")` in native
(x86-64) layout: 4 alignment pad bytes sit between the two `b` fields and
the `Q`.  The `b` fields only ever carry the small constants 1 and 2, so
they are modelled as plain bytes. -/
def packLegacyPreamble (sch meth ts : Nat) (iv docId rev : List Nat) : List Nat :=
  BLOB_SIGNATURE_MAGIC ++ ([sch % 256, meth % 256] ++ (List.replicate 4 0 ++
    (qBytes ts ++ (fixedBytes 16 iv ++ (pascal255 docId ++ pascal255 rev)))))

/-- `PACMAN.pack` for `struct.Struct("2sbbQ16s255p255pQ")` in native layout:
the legacy fields, 2 alignment pad bytes, then the `size` field. -/
def packPreamble (sch meth ts : Nat) (iv docId rev : List Nat) (size : Nat) : List Nat :=
  packLegacyPreamble sch meth ts iv docId rev ++ (List.replicate 2 0 ++ qBytes size)

/-- The tuple unpacked from a preamble by `BlobDecryptor._consume_preamble`. -/
structure PreambleFields where
  magic : List Nat
  scheme : Nat
  method : Nat
  ts : Nat
  iv : List Nat
  doc_id : List Nat
  rev : List Nat
  size : Option Nat
deriving DecidableEq

/-- `LEGACY_PACMAN.unpack`: fields at their native struct offsets.  The
signed `b` fields are only ever compared against the constants 1 and 2,
for which the signed and unsigned readings of a byte agree. -/
def unpackLegacyPreamble (p : List Nat) : PreambleFields :=
  { magic := p.take 2
    scheme := (p.drop 2).headD 0
    method := (p.drop 3).headD 0
    ts := unpackQ ((p.drop 8).take 8)
    iv := (p.drop 16).take 16
    doc_id := unpackP ((p.drop 32).take 255)
    rev := unpackP ((p.drop 287).take 255)
    size := none }

/-- `PACMAN.unpack`: the legacy fields plus the trailing `size` field at
offset 544. -/
def unpackPreamble (p : List Nat) : PreambleFields :=
  { unpackLegacyPreamble p with size := some (unpackQ ((p.drop 544).take 8)) }

/-- Keystream byte of the modelled AES-256 counter stream: a deterministic
function of key, iv and stream position. -/
def keystream (key iv : List Nat) (i : Nat) : Nat :=
  key.getD (i % 32) 0 ^^^ iv.getD (i % 16) 0 ^^^ (i % 256)

/-- `cipher.update`: XOR the data with the keystream starting at stream
position `pos` (identical for the GCM encryptor and decryptor). -/
def xcrypt (key iv : List Nat) (pos : Nat) : List Nat → List Nat
  | [] => []
  | b :: rest => (b ^^^ keystream key iv pos) :: xcrypt key iv (pos + 1) rest

/-- One lane of the tag fold: XOR of the bytes at positions congruent to
`k` mod 16. -/
def xorStride (k i : Nat) : List Nat → Nat
  | [] => 0
  | b :: rest => (if i % 16 = k then b else 0) ^^^ xorStride k (i + 1) rest

/-- 16-byte tag of the modelled GCM engine: a deterministic function of
(key, iv, associated data, ciphertext), standing in for GHASH. -/
def gcmTag (key iv aad ct : List Nat) : List Nat :=
  (List.range 16).map fun k =>
    xorStride k 0 ct ^^^ xorStride k 0 aad ^^^ key.getD k 0 ^^^ iv.getD k 0 ^^^
      (ct.length % 256)

/-- Model of `hashlib.sha256` at its interface: a deterministic 32-byte
digest of the message. -/
def sha256 (msg : List Nat) : List Nat :=
  (List.range 32).map fun k =>
    msg.foldl (fun acc b => (acc * 31 + b + 1) % 256) ((k + msg.length) % 256)

/-- `_hmac_sha256`: the `hmac` module construction (block size 64) around
the modelled digest. -/
def hmac_sha256 (key msg : List Nat) : List Nat :=
  sha256 (((if 64 < key.length then sha256 key else key) ++
      List.replicate (64 - (if 64 < key.length then sha256 key else key).length) 0).map
        (fun b => b ^^^ 0x5c) ++
    sha256 ((((if 64 < key.length then sha256 key else key) ++
      List.replicate (64 - (if 64 < key.length then sha256 key else key).length) 0).map
        (fun b => b ^^^ 0x36)) ++ msg))

/-- `_get_sym_key_for_doc`: HMAC-SHA256 keyed with the second half of the
secret over the document id. -/
def get_sym_key_for_doc (doc_id secret : List Nat) : List Nat :=
  hmac_sha256 (secret.drop SECRET_LENGTH) doc_id

inductive CipherMode where
  | GCM
  | CTR
deriving DecidableEq

/-- State of an `AESWriter` together with the cipher context it wraps.
`input` and `output` accumulate the bytes passed through `update`;
`initBuf` is the content the supplied buffer already had. -/
structure AESWriter where
  key : List Nat
  iv : List Nat
  initBuf : List Nat
  tagArg : Option (List Nat)
  mode : CipherMode
  input : List Nat
  output : List Nat
  aead : List Nat
deriving DecidableEq

/-- Python truthiness of the tag argument, deciding
`cipher.decryptor() if tag else cipher.encryptor()`. -/
def tagTruthy : Option (List Nat) → Bool
  | some (_ :: _) => true
  | _ => false

def AESWriter.decrypting (w : AESWriter) : Bool := tagTruthy w.tagArg

/-- `AESWriter.__init__`.  `ivEntropy` stands for the 16 bytes
`os.urandom(16)` would return; `iv or os.urandom(16)` falls back to it
when the iv argument is absent or empty (falsy). -/
def AESWriter.init (key : List Nat) (iv : Option (List Nat)) (buf : Option (List Nat))
    (tag : Option (List Nat)) (mode : CipherMode) (ivEntropy : List Nat) :
    Except PyErr AESWriter :=
  if key.length ≠ 32 then .error (.EncryptionDecryptionError "key is not 256 bits")
  else if tag ≠ none ∧ iv = none then .error .AssertionError
  else .ok
    { key := key
      iv := match iv with
        | some (v :: vs) => v :: vs
        | _ => ivEntropy
      initBuf := buf.getD []
      tagArg := tag
      mode := mode
      input := []
      output := []
      aead := [] }

/-- `AESWriter.authenticate`. -/
def AESWriter.authenticate (w : AESWriter) (data : List Nat) : AESWriter :=
  { w with aead := w.aead ++ data }

/-- `AESWriter.write`: feed one chunk through `cipher.update` and append
the result to the buffer. -/
def AESWriter.write (w : AESWriter) (data : List Nat) : AESWriter :=
  { w with
    input := w.input ++ data
    output := w.output ++ xcrypt w.key w.iv w.input.length data }

/-- `AESWriter.end`: finalize the cipher and return `(aead, buffer)` (the
name `end` is a keyword here).  Only a GCM decryptor verifies a tag at
finalize, raising `InvalidTag` on mismatch; an encryptor or a CTR context
verifies nothing. -/
def AESWriter.finish (w : AESWriter) : Except PyErr (List Nat × List Nat) :=
  if w.decrypting ∧ w.mode = .GCM ∧ gcmTag w.key w.iv w.aead w.input ≠ w.tagArg.getD []
  then .error .InvalidTag
  else .ok (w.aead, w.initBuf ++ w.output)

/-- The `tag` property after finalize: `getattr(self.cipher, "tag", None)`;
the GCM encryptor exposes a tag over the ciphertext it produced. -/
def AESWriter.tagAttr (w : AESWriter) : Option (List Nat) :=
  if w.mode = .GCM then
    if w.decrypting then w.tagArg
    else some (gcmTag w.key w.iv w.aead w.output)
  else none

/-- `FileBodyProducer` pushing the cleartext in `readSize = 2 ** 16` byte
chunks into the consumer. -/
def producerWriteLoop (w : AESWriter) (content : List Nat) : AESWriter :=
  if h : content = [] then w
  else producerWriteLoop (w.write (content.take 65536)) (content.drop 65536)
termination_by content.length
decreasing_by
  have hp : 0 < content.length := List.length_pos.mpr h
  simp
  omega

/-- `CryptoStreamBodyProducer._writeloop`: read `readSize` characters at a
time, base64-decode each chunk and feed it to the consumer. -/
def decryptWriteLoop (w : AESWriter) (fd : List Nat) : AESWriter :=
  if h : fd = [] then w
  else decryptWriteLoop (w.write (b64decode (fd.take 65536))) (fd.drop 65536)
termination_by fd.length
decreasing_by
  have hp : 0 < fd.length := List.length_pos.mpr h
  simp
  omega

/-- The `DocInfo` namedtuple. -/
structure DocInfo where
  doc_id : List Nat
  rev : List Nat
deriving DecidableEq

/-- `BlobEncryptor.__init__` followed by `encrypt()`.  `ivEntropy` is the
16 bytes `os.urandom(16)` returns inside `AESWriter`, `now` is
`int(time.time())`.  The preamble is authenticated as associated data,
the cleartext is streamed through the cipher in 2 ** 16 byte chunks, and
the result is `b64(preamble)`, the separator, then the payload —
base64-armored or raw according to `armor`. -/
def blobEncrypt (docInfo : DocInfo) (content : List Nat) (secret : List Nat)
    (armor : Bool) (ivEntropy : List Nat) (now : Nat) : Except PyErr (List Nat) :=
  if secret = [] then .error (.EncryptionDecryptionError "no secret given")
  else
    (AESWriter.init (get_sym_key_for_doc docInfo.doc_id secret) none none none .GCM
        ivEntropy).bind fun aes0 =>
      let preamble := packPreamble ENC_SCHEME_symkey ENC_METHOD_aes_256_gcm now aes0.iv
        docInfo.doc_id docInfo.rev content.length
      let aes2 := producerWriteLoop (aes0.authenticate preamble) content
      aes2.finish.bind fun pe =>
        .ok (b64encode pe.1 ++ SEPARATOR ::
          (if armor then b64encode (pe.2 ++ aes2.tagAttr.getD [])
           else pe.2 ++ aes2.tagAttr.getD []))

/-- The validation chain of `_consume_preamble` (lines 405-417): note that
both the rev mismatch and the doc_id mismatch raise
`InvalidBlob("invalid revision")`, and the magic mismatch raises a bare
`InvalidBlob`. -/
def checkPreambleFields (expected_doc_id expected_rev : List Nat)
    (u : PreambleFields) : Option PyErr :=
  if u.magic ≠ BLOB_SIGNATURE_MAGIC then some .InvalidBlobPlain
  else if u.scheme ≠ ENC_SCHEME_symkey then some (.InvalidBlob "invalid scheme")
  else if u.method ≠ ENC_METHOD_aes_256_gcm then some (.InvalidBlob "invalid encryption scheme")
  else if u.rev ≠ expected_rev then some (.InvalidBlob "invalid revision")
  else if u.doc_id ≠ expected_doc_id then some (.InvalidBlob "invalid revision")
  else none

/-- Lines 388-417 of `_consume_preamble`: dispatch on the exact preamble
byte length (542 legacy with a deprecation warning, 552 current, anything
else `InvalidBlob`), unpack, then validate.  The returned Bool is the
legacy-compatibility warning. -/
def decodePreamble (expected_doc_id expected_rev : List Nat) (preamble : List Nat) :
    Except PyErr (PreambleFields × Bool) :=
  if preamble.length = 542 then
    match checkPreambleFields expected_doc_id expected_rev (unpackLegacyPreamble preamble) with
    | some e => .error e
    | none => .ok (unpackLegacyPreamble preamble, true)
  else if preamble.length = 552 then
    match checkPreambleFields expected_doc_id expected_rev (unpackPreamble preamble) with
    | some e => .error e
    | none => .ok (unpackPreamble preamble, false)
  else .error (.InvalidBlobSize preamble.length)

/-- Result of `_consume_preamble`, including the rewritten content of the
caller-supplied fd: the joined payload parts, written from position 0 and
truncated. -/
structure DecInit where
  preamble : List Nat
  iv : List Nat
  size : Option Nat
  fd : List Nat
  legacyWarn : Bool
deriving DecidableEq

/-- `BlobDecryptor._consume_preamble`: split on whitespace, base64-decode
the first part (malformed base64 is caught and re-raised as a bare
`InvalidBlob`; a missing first part is an uncaught IndexError), decode
and validate the preamble, then rewrite the fd to hold only the joined
remaining parts. -/
def consume_preamble (expected_doc_id expected_rev : List Nat) (blob : List Nat) :
    Except PyErr DecInit :=
  match splitWs blob with
  | [] => .error .IndexError
  | encodedPre :: restParts =>
    if ((encodedPre.filter isB64Byte).length % 4 ≠ 0) then .error .InvalidBlobPlain
    else
      (decodePreamble expected_doc_id expected_rev
          (b64decode (encodedPre.filter isB64Byte))).bind fun pr =>
        .ok { preamble := b64decode (encodedPre.filter isB64Byte)
              iv := pr.1.iv
              size := pr.1.size
              fd := restParts.join
              legacyWarn := pr.2 }

/-- `BlobDecryptor.__init__` (without starting the stream): rejects a
missing secret, rejects `armor=False` with `NotImplementedError`,
consumes the preamble, asserts it and the iv are non-empty, then builds
the AES context with `tag=None` — which makes `AESWriter` pick
`cipher.encryptor()` — and authenticates the preamble. -/
def blobDecryptorInit (docInfo : DocInfo) (blob : List Nat) (secret : List Nat)
    (armor : Bool) : Except PyErr (DecInit × AESWriter) :=
  if secret = [] then .error (.EncryptionDecryptionError "no secret given")
  else if armor = false then .error .NotImplementedError
  else
    (consume_preamble docInfo.doc_id docInfo.rev blob).bind fun di =>
      if di.preamble = [] ∨ di.iv = [] then .error .AssertionError
      else
        (AESWriter.init (get_sym_key_for_doc docInfo.doc_id secret) (some di.iv) none none
            .GCM []).bind fun aes =>
          .ok (di, aes.authenticate di.preamble)

/-- `BlobDecryptor.decrypt()`: stream the rewritten fd through the cipher
(`CryptoStreamBodyProducer` base64-decodes each chunk), finalize — an
`InvalidTag` would surface as `InvalidBlob` — then seek 16 bytes back
from the end and truncate, returning the cleartext and the declared
size. -/
def blobDecrypt (docInfo : DocInfo) (blob : List Nat) (secret : List Nat)
    (armor : Bool) : Except PyErr (List Nat × Option Nat) :=
  (blobDecryptorInit docInfo blob secret armor).bind fun di_aes =>
    match (decryptWriteLoop di_aes.2 di_aes.1.fd).finish with
    | .error e =>
      if e = .InvalidTag then .error (.InvalidBlob "Invalid Tag. Blob authentication failed.")
      else .error e
    | .ok pe =>
      if pe.2.length < 16 then .error .ValueError
      else .ok (pe.2.take (pe.2.length - 16), di_aes.1.size)

/-- `FilesystemBlobsBackend._get_path`: the sharded path components under
the blobs root; `blob_id[0]` raises IndexError on an empty id. -/
def get_path (user blob_id : List Nat) : Except PyErr (List (List Nat)) :=
  if blob_id = [] then .error .IndexError
  else .ok [user, blob_id.take 1, blob_id.take 3, blob_id.take 6, blob_id]

/-- Stored files keyed by path (newest first). -/
abbrev FS := List (List (List Nat) × List Nat)

def fsLookup (fs : FS) (p : List (List Nat)) : Option (List Nat) :=
  match fs with
  | [] => none
  | e :: rest => if e.1 = p then some e.2 else fsLookup rest p

/-- `get_total_storage`/`_get_disk_usage`, abstracting `du` block counts
as total stored bytes under the user directory. -/
def get_total_storage (fs : FS) (user : List Nat) : Nat :=
  (fs.filter fun e => e.1.headD [] = user).foldl (fun a e => a + e.2.length) 0

inductive WriteBlobResult where
  | conflict
  | quotaExceeded
  | written
deriving DecidableEq

/-- `FilesystemBlobsBackend.write_blob`: answer 409 Conflict — before
opening the target for writing — when a file already exists at the path;
then the quota check (507); otherwise store the body. -/
def write_blob (fs : FS) (user blob_id body : List Nat) (quota : Nat) :
    Except PyErr (FS × WriteBlobResult) :=
  (get_path user blob_id).bind fun path =>
    if (fsLookup fs path).isSome then .ok (fs, .conflict)
    else if quota < get_total_storage fs user then .ok (fs, .quotaExceeded)
    else .ok ((path, body) :: fs, .written)

deriving instance DecidableEq for Except

/-- Flip bit `i` of a byte string (bit 0 is the low bit of the first byte). -/
def flipBit (i : Nat) (l : List Nat) : List Nat :=
  l.set (i / 8) (l.getD (i / 8) 0 ^^^ 2 ^ (i % 8))

/-! ## Supporting lemmas -/

theorem b64val_b64char : ∀ v < 64, b64val (b64char v) = v := by decide

theorem b64char_ne_61 : ∀ v < 64, b64char v ≠ 61 := by decide

theorem b64char_not_space : ∀ v < 64, isPySpace (b64char v) = false := by decide

theorem b64char_lt (v : Nat) : b64char v < 256 := by
  unfold b64char; split <;> try omega
  split <;> try omega
  split <;> try omega
  split <;> omega

/-- Decoding inverts encoding on byte strings. -/
theorem b64decode_b64encode (bs : List Nat) (h : isBytes bs) :
    b64decode (b64encode bs) = bs := by
  match bs with
  | [] => rfl
  | [a] =>
    have ha : a < 256 := h a (by simp)
    simp only [b64encode, b64decode]
    rw [if_pos trivial]
    rw [b64val_b64char _ (by omega), b64val_b64char _ (by omega)]
    simp; omega
  | [a, b] =>
    have ha : a < 256 := h a (by simp)
    have hb : b < 256 := h b (by simp)
    simp only [b64encode, b64decode]
    rw [if_neg (b64char_ne_61 _ (by omega)), if_pos trivial]
    rw [b64val_b64char _ (by omega), b64val_b64char _ (by omega),
      b64val_b64char _ (by omega)]
    simp; constructor <;> omega
  | [a, b, c] =>
    have ha : a < 256 := h a (by simp)
    have hb : b < 256 := h b (by simp)
    have hc : c < 256 := h c (by simp)
    simp only [b64encode, b64decode]
    rw [if_neg (b64char_ne_61 _ (by omega)), if_neg (b64char_ne_61 _ (by omega))]
    rw [b64val_b64char _ (by omega), b64val_b64char _ (by omega),
      b64val_b64char _ (by omega), b64val_b64char _ (by omega)]
    have h1 : a / 4 * 4 + (a % 4 * 16 + b / 16) / 16 = a := by omega
    have h2 : (a % 4 * 16 + b / 16) % 16 * 16 + (b % 16 * 4 + c / 64) / 4 = b := by omega
    have h3 : (b % 16 * 4 + c / 64) % 4 * 64 + c % 64 = c := by omega
    rw [h1, h2, h3]
  | a :: b :: c :: d :: rest =>
    have ha : a < 256 := h a (by simp)
    have hb : b < 256 := h b (by simp)
    have hc : c < 256 := h c (by simp)
    have ih := b64decode_b64encode (d :: rest) (fun x hx => h x (by simp_all))
    simp only [b64encode, b64decode]
    rw [if_neg (b64char_ne_61 _ (by omega)), if_neg (b64char_ne_61 _ (by omega))]
    rw [b64val_b64char _ (by omega), b64val_b64char _ (by omega),
      b64val_b64char _ (by omega), b64val_b64char _ (by omega)]
    rw [ih]
    have h1 : a / 4 * 4 + (a % 4 * 16 + b / 16) / 16 = a := by omega
    have h2 : (a % 4 * 16 + b / 16) % 16 * 16 + (b % 16 * 4 + c / 64) / 4 = b := by omega
    have h3 : (b % 16 * 4 + c / 64) % 4 * 64 + c % 64 = c := by omega
    rw [h1, h2, h3]

theorem b64char_isB64 (v : Nat) : isB64Byte (b64char v) = true := by
  unfold b64char isB64Byte
  repeat' split
  all_goals simp
  all_goals omega

theorem b64char_not_space_any (v : Nat) : isPySpace (b64char v) = false := by
  unfold b64char isPySpace
  repeat' split
  all_goals simp
  all_goals omega

theorem b64encode_all_b64 (bs : List Nat) : ∀ c ∈ b64encode bs, isB64Byte c = true := by
  match bs with
  | [] => simp [b64encode]
  | [a] =>
    simp only [b64encode, List.forall_mem_cons]
    exact ⟨b64char_isB64 _, b64char_isB64 _, by decide, by decide, by simp⟩
  | [a, b] =>
    simp only [b64encode, List.forall_mem_cons]
    exact ⟨b64char_isB64 _, b64char_isB64 _, b64char_isB64 _, by decide, by simp⟩
  | a :: b :: c' :: rest =>
    simp only [b64encode, List.forall_mem_cons]
    exact ⟨b64char_isB64 _, b64char_isB64 _, b64char_isB64 _, b64char_isB64 _,
      b64encode_all_b64 rest⟩

theorem b64encode_not_space (bs : List Nat) :
    ∀ c ∈ b64encode bs, isPySpace c = false := by
  intro c hc
  have h := b64encode_all_b64 bs c hc
  revert h
  unfold isB64Byte isPySpace
  intro h
  simp at h ⊢
  omega

theorem b64encode_length (bs : List Nat) :
    (b64encode bs).length = 4 * ((bs.length + 2) / 3) := by
  match bs with
  | [] => simp [b64encode]
  | [a] => simp [b64encode]
  | [a, b] => simp [b64encode]
  | a :: b :: c :: rest =>
    simp only [b64encode, List.length_cons]
    rw [b64encode_length rest]
    omega

theorem b64encode_ne_nil (bs : List Nat) (h : bs ≠ []) : b64encode bs ≠ [] := by
  match bs with
  | [a] => simp [b64encode]
  | [a, b] => simp [b64encode]
  | a :: b :: c :: rest => simp [b64encode]

theorem b64encode_append (as bs : List Nat) (h : as.length % 3 = 0) :
    b64encode (as ++ bs) = b64encode as ++ b64encode bs := by
  match as with
  | [] => simp [b64encode]
  | [a] => simp at h
  | [a, b] => simp at h
  | a :: b :: c :: rest =>
    simp only [List.cons_append, b64encode, List.length_cons, List.append_eq] at h ⊢
    rw [b64encode_append rest bs (by omega)]

theorem b64decode_append (s t : List Nat) (h4 : s.length % 4 = 0) (h61 : 61 ∉ s) :
    b64decode (s ++ t) = b64decode s ++ b64decode t := by
  match s with
  | [] => simp [b64decode]
  | [a] => simp at h4
  | [a, b] => simp at h4
  | [a, b, c] => simp at h4
  | a :: b :: c :: d :: rest =>
    have hc : c ≠ 61 := by intro e; exact h61 (by simp [e])
    have hd : d ≠ 61 := by intro e; exact h61 (by simp [e])
    simp only [List.cons_append, b64decode, if_neg hc, if_neg hd, List.length_cons,
      List.append_eq] at h4 ⊢
    rw [b64decode_append rest t (by omega) (fun hm => h61 (by simp [hm]))]

theorem decodeChunks_b64encode (bs : List Nat) (h : isBytes bs) :
    decodeChunks (b64encode bs) = bs := by
  by_cases hle : bs.length ≤ 49152
  · rw [decodeChunks]
    by_cases hn : b64encode bs = []
    · rw [dif_pos hn]
      match bs with
      | [] => rfl
      | b :: tl => exact absurd hn (b64encode_ne_nil _ (by simp))
    · rw [dif_neg hn]
      have hlen : (b64encode bs).length ≤ 65536 := by
        rw [b64encode_length]; omega
      rw [List.take_of_length_le hlen, List.drop_of_length_le hlen]
      rw [decodeChunks]
      simp [b64decode_b64encode bs h]
  · have h3 : (bs.take 49152).length % 3 = 0 := by
      rw [List.length_take]; omega
    have hsplit : b64encode bs =
        b64encode (bs.take 49152) ++ b64encode (bs.drop 49152) := by
      conv_lhs => rw [← List.take_append_drop 49152 bs]
      exact b64encode_append _ _ h3
    have hlen1 : (b64encode (bs.take 49152)).length = 65536 := by
      rw [b64encode_length, List.length_take]
      omega
    have htk : bs.take 49152 ≠ [] := by
      intro ht
      have hlt := congrArg List.length ht
      rw [List.length_take, List.length_nil] at hlt
      omega
    have hne : b64encode bs ≠ [] := by
      rw [hsplit]
      intro he
      rw [List.append_eq_nil] at he
      exact b64encode_ne_nil _ htk he.1
    rw [decodeChunks]
    rw [dif_neg hne]
    rw [hsplit, List.take_left' hlen1, List.drop_left' hlen1]
    rw [b64decode_b64encode _ (fun x hx => h x (List.mem_of_mem_take hx))]
    rw [decodeChunks_b64encode (bs.drop 49152) (fun x hx => h x (List.mem_of_mem_drop hx))]
    exact List.take_append_drop _ _
termination_by bs.length
decreasing_by
  simp
  omega

theorem takeWhile_append_neg (p : Nat → Bool) (as : List Nat) (b : Nat) (bs : List Nat)
    (h : ∀ a ∈ as, p a = true) (hb : p b = false) :
    (as ++ b :: bs).takeWhile p = as := by
  induction as with
  | nil => simp [List.takeWhile_cons, hb]
  | cons a as ih =>
    have ha := h a (by simp)
    simp only [List.cons_append, List.takeWhile_cons, ha, if_true]
    rw [ih (fun x hx => h x (by simp [hx]))]

theorem dropWhile_append_neg (p : Nat → Bool) (as : List Nat) (b : Nat) (bs : List Nat)
    (h : ∀ a ∈ as, p a = true) (hb : p b = false) :
    (as ++ b :: bs).dropWhile p = b :: bs := by
  induction as with
  | nil => simp [List.dropWhile_cons, hb]
  | cons a as ih =>
    have ha := h a (by simp)
    simp only [List.cons_append, List.dropWhile_cons, ha, if_true]
    exact ih (fun x hx => h x (by simp [hx]))

theorem splitWs_nil : splitWs [] = [] := by
  rw [splitWs]

theorem splitWs_cons (b : Nat) (rest : List Nat) :
    splitWs (b :: rest) =
      if isPySpace b then splitWs rest
      else (b :: rest.takeWhile (fun c => !isPySpace c)) ::
        splitWs (rest.dropWhile (fun c => !isPySpace c)) := by
  rw [splitWs]

theorem splitWs_single (y : List Nat) (hy : y ≠ []) (h : ∀ b ∈ y, isPySpace b = false) :
    splitWs y = [y] := by
  match y with
  | b :: bs =>
    rw [splitWs_cons, if_neg (by simp [h b (by simp)])]
    rw [List.takeWhile_eq_self_iff.mpr (by intro x hx; simp [h x (by simp [hx])])]
    rw [List.dropWhile_eq_nil_iff.mpr (by intro x hx; simp [h x (by simp [hx])])]
    rw [splitWs_nil]

theorem splitWs_two (x y : List Nat) (hy : y ≠ [])
    (hxs : ∀ b ∈ x, isPySpace b = false) (hys : ∀ b ∈ y, isPySpace b = false)
    (hx : x ≠ []) :
    splitWs (x ++ 32 :: y) = [x, y] := by
  match x with
  | a :: as =>
    rw [List.cons_append, splitWs_cons, if_neg (by simp [hxs a (by simp)])]
    rw [takeWhile_append_neg _ as 32 y
      (fun c hc => by simp [hxs c (by simp [hc])]) (by decide)]
    rw [dropWhile_append_neg _ as 32 y
      (fun c hc => by simp [hxs c (by simp [hc])]) (by decide)]
    rw [splitWs_cons, if_pos (by decide)]
    rw [splitWs_single y hy hys]

theorem qBytes_length (n : Nat) : (qBytes n).length = 8 := by
  simp [qBytes]

theorem fixedBytes_length (w : Nat) (s : List Nat) : (fixedBytes w s).length = w := by
  simp [fixedBytes]
  omega

theorem pascal255_length (s : List Nat) : (pascal255 s).length = 255 := by
  simp [pascal255]
  omega

theorem packLegacyPreamble_length (sch meth ts : Nat) (iv docId rev : List Nat) :
    (packLegacyPreamble sch meth ts iv docId rev).length = 542 := by
  simp [packLegacyPreamble, BLOB_SIGNATURE_MAGIC, qBytes_length, fixedBytes_length,
    pascal255_length]

theorem packPreamble_length (sch meth ts : Nat) (iv docId rev : List Nat) (size : Nat) :
    (packPreamble sch meth ts iv docId rev size).length = 552 := by
  simp [packPreamble, packLegacyPreamble_length, qBytes_length]

theorem unpackQ_qBytes (n : Nat) : unpackQ (qBytes n) = n % 2 ^ 64 := by
  have h : List.range 8 = [0, 1, 2, 3, 4, 5, 6, 7] := rfl
  simp [qBytes, unpackQ, h]
  omega

theorem unpackP_pascal255 (s : List Nat) (h : s.length ≤ 254) :
    unpackP (pascal255 s) = s := by
  simp only [unpackP, pascal255, List.tail_cons, List.headD_cons]
  rw [min_eq_left h, List.take_of_length_le h, min_eq_left h]
  exact List.take_left' rfl

theorem fixedBytes_of_length (w : Nat) (s : List Nat) (h : s.length = w) :
    fixedBytes w s = s := by
  simp [fixedBytes, h, List.take_of_length_le (le_of_eq h)]

theorem unpackLegacy_pack (sch meth ts : Nat) (iv docId rev suffix : List Nat)
    (hiv : iv.length = 16) (hd : docId.length ≤ 254) (hr : rev.length ≤ 254) :
    unpackLegacyPreamble (packLegacyPreamble sch meth ts iv docId rev ++ suffix) =
      { magic := BLOB_SIGNATURE_MAGIC, scheme := sch % 256, method := meth % 256,
        ts := ts % 2 ^ 64, iv := iv, doc_id := docId, rev := rev, size := none } := by
  have hp : packLegacyPreamble sch meth ts iv docId rev ++ suffix =
      19 :: 55 :: sch % 256 :: meth % 256 :: 0 :: 0 :: 0 :: 0 ::
        (qBytes ts ++ (fixedBytes 16 iv ++ (pascal255 docId ++ (pascal255 rev ++ suffix)))) := by
    simp [packLegacyPreamble, BLOB_SIGNATURE_MAGIC, List.append_assoc]
  rw [hp]
  have h8 : (19 :: 55 :: sch % 256 :: meth % 256 :: 0 :: 0 :: 0 :: 0 ::
      (qBytes ts ++ (fixedBytes 16 iv ++ (pascal255 docId ++ (pascal255 rev ++ suffix))))).drop 8 =
      qBytes ts ++ (fixedBytes 16 iv ++ (pascal255 docId ++ (pascal255 rev ++ suffix))) := by
    simp
  have h16 : (19 :: 55 :: sch % 256 :: meth % 256 :: 0 :: 0 :: 0 :: 0 ::
      (qBytes ts ++ (fixedBytes 16 iv ++ (pascal255 docId ++ (pascal255 rev ++ suffix))))).drop 16 =
      fixedBytes 16 iv ++ (pascal255 docId ++ (pascal255 rev ++ suffix)) := by
    have : (16 : Nat) = 8 + 8 := rfl
    rw [this, ← List.drop_drop, h8, List.drop_left' (qBytes_length ts)]
  have h32 : (19 :: 55 :: sch % 256 :: meth % 256 :: 0 :: 0 :: 0 :: 0 ::
      (qBytes ts ++ (fixedBytes 16 iv ++ (pascal255 docId ++ (pascal255 rev ++ suffix))))).drop 32 =
      pascal255 docId ++ (pascal255 rev ++ suffix) := by
    have : (32 : Nat) = 16 + 16 := rfl
    rw [this, ← List.drop_drop, h16, List.drop_left' (fixedBytes_length 16 iv)]
  have h287 : (19 :: 55 :: sch % 256 :: meth % 256 :: 0 :: 0 :: 0 :: 0 ::
      (qBytes ts ++ (fixedBytes 16 iv ++ (pascal255 docId ++ (pascal255 rev ++ suffix))))).drop 287 =
      pascal255 rev ++ suffix := by
    have : (287 : Nat) = 32 + 255 := rfl
    rw [this, ← List.drop_drop, h32, List.drop_left' (pascal255_length docId)]
  unfold unpackLegacyPreamble
  rw [h8, h16, h32, h287]
  rw [List.take_left' (qBytes_length ts), unpackQ_qBytes]
  rw [List.take_left' (fixedBytes_length 16 iv), fixedBytes_of_length 16 iv hiv]
  rw [List.take_left' (pascal255_length docId), unpackP_pascal255 docId hd]
  rw [List.take_left' (pascal255_length rev), unpackP_pascal255 rev hr]
  simp [BLOB_SIGNATURE_MAGIC]

theorem unpackPreamble_pack (sch meth ts : Nat) (iv docId rev : List Nat) (size : Nat)
    (hiv : iv.length = 16) (hd : docId.length ≤ 254) (hr : rev.length ≤ 254) :
    unpackPreamble (packPreamble sch meth ts iv docId rev size) =
      { magic := BLOB_SIGNATURE_MAGIC, scheme := sch % 256, method := meth % 256,
        ts := ts % 2 ^ 64, iv := iv, doc_id := docId, rev := rev,
        size := some (size % 2 ^ 64) } := by
  unfold unpackPreamble packPreamble
  rw [unpackLegacy_pack sch meth ts iv docId rev _ hiv hd hr]
  have h544 : ((packLegacyPreamble sch meth ts iv docId rev) ++
      (List.replicate 2 0 ++ qBytes size)).drop 544 = qBytes size := by
    have : (544 : Nat) = 542 + 2 := rfl
    rw [this, ← List.drop_drop, List.drop_left' (packLegacyPreamble_length sch meth ts iv docId rev)]
    simp
  rw [h544, List.take_of_length_le (by rw [qBytes_length]), unpackQ_qBytes]

theorem getD_lt_256 (l : List Nat) (h : isBytes l) (n : Nat) : l.getD n 0 < 256 := by
  rw [List.getD_eq_getElem?_getD]
  cases he : l[n]? with
  | none => simp
  | some x =>
    have hx : x ∈ l := List.getElem?_mem he
    simpa using h x hx

theorem keystream_lt (key iv : List Nat) (hk : isBytes key) (hi : isBytes iv)
    (n : Nat) : keystream key iv n < 256 := by
  have h1 := getD_lt_256 key hk (n % 32)
  have h2 := getD_lt_256 iv hi (n % 16)
  have h3 : n % 256 < 256 := Nat.mod_lt _ (by norm_num)
  have h8 : (256 : Nat) = 2 ^ 8 := rfl
  rw [keystream, h8] at *
  exact Nat.xor_lt_two_pow (Nat.xor_lt_two_pow h1 h2) h3

theorem xcrypt_length (key iv : List Nat) (pos : Nat) (l : List Nat) :
    (xcrypt key iv pos l).length = l.length := by
  induction l generalizing pos with
  | nil => rfl
  | cons b rest ih => simp [xcrypt, ih]

theorem xcrypt_append (key iv : List Nat) (pos : Nat) (a b : List Nat) :
    xcrypt key iv pos (a ++ b) = xcrypt key iv pos a ++ xcrypt key iv (pos + a.length) b := by
  induction a generalizing pos with
  | nil => simp [xcrypt]
  | cons x rest ih =>
    simp only [List.cons_append, xcrypt, List.append_eq, ih (pos + 1), List.length_cons,
      List.cons.injEq, true_and]
    have hp : pos + 1 + rest.length = pos + (rest.length + 1) := by omega
    rw [hp]

theorem xcrypt_xcrypt (key iv : List Nat) (pos : Nat) (l : List Nat) :
    xcrypt key iv pos (xcrypt key iv pos l) = l := by
  induction l generalizing pos with
  | nil => rfl
  | cons b rest ih =>
    simp only [xcrypt, ih (pos + 1)]
    rw [Nat.xor_assoc, Nat.xor_self, Nat.xor_zero]

theorem xcrypt_isBytes (key iv : List Nat) (hk : isBytes key) (hi : isBytes iv)
    (pos : Nat) (l : List Nat) (hl : isBytes l) : isBytes (xcrypt key iv pos l) := by
  induction l generalizing pos with
  | nil => intro b hb; simp [xcrypt] at hb
  | cons b rest ih =>
    intro x hx
    simp only [xcrypt, List.mem_cons] at hx
    rcases hx with hx | hx
    · subst hx
      have hb : b < 256 := hl b (by simp)
      have hks := keystream_lt key iv hk hi pos
      have h8 : (256 : Nat) = 2 ^ 8 := rfl
      rw [h8] at *
      exact Nat.xor_lt_two_pow hb hks
    · exact ih (pos + 1) (fun y hy => hl y (by simp [hy])) x hx

theorem xorStride_lt (k i : Nat) (l : List Nat) (h : isBytes l) :
    xorStride k i l < 256 := by
  induction l generalizing i with
  | nil => simp [xorStride]
  | cons b rest ih =>
    have hb : b < 256 := h b (by simp)
    have hr := ih (i + 1) (fun y hy => h y (by simp [hy]))
    have h8 : (256 : Nat) = 2 ^ 8 := rfl
    simp only [xorStride]
    rw [h8] at *
    exact Nat.xor_lt_two_pow (by split <;> omega) hr

theorem gcmTag_length (key iv aad ct : List Nat) : (gcmTag key iv aad ct).length = 16 := by
  simp [gcmTag]

theorem gcmTag_isBytes (key iv aad ct : List Nat) (hk : isBytes key) (hi : isBytes iv)
    (ha : isBytes aad) (hc : isBytes ct) : isBytes (gcmTag key iv aad ct) := by
  intro x hx
  simp only [gcmTag, List.mem_map] at hx
  obtain ⟨k, _, hk2⟩ := hx
  subst hk2
  have h8 : (256 : Nat) = 2 ^ 8 := rfl
  rw [h8]
  exact Nat.xor_lt_two_pow
    (Nat.xor_lt_two_pow
      (Nat.xor_lt_two_pow
        (Nat.xor_lt_two_pow (by rw [← h8]; exact xorStride_lt k 0 ct hc)
          (by rw [← h8]; exact xorStride_lt k 0 aad ha))
        (by rw [← h8]; exact getD_lt_256 key hk k))
      (by rw [← h8]; exact getD_lt_256 iv hi k))
    (by rw [← h8]; exact Nat.mod_lt _ (by norm_num))

theorem sha256_length (msg : List Nat) : (sha256 msg).length = 32 := by
  simp [sha256]

theorem foldl_mod_lt (l : List Nat) (a : Nat) (h : a < 256) :
    l.foldl (fun acc b => (acc * 31 + b + 1) % 256) a < 256 := by
  induction l generalizing a with
  | nil => simpa
  | cons b rest ih => exact ih _ (Nat.mod_lt _ (by norm_num))

theorem sha256_isBytes (msg : List Nat) : isBytes (sha256 msg) := by
  intro x hx
  simp only [sha256, List.mem_map] at hx
  obtain ⟨k, _, hk⟩ := hx
  subst hk
  exact foldl_mod_lt _ _ (Nat.mod_lt _ (by norm_num))

theorem get_sym_key_length (doc_id secret : List Nat) :
    (get_sym_key_for_doc doc_id secret).length = 32 :=
  sha256_length _

theorem get_sym_key_isBytes (doc_id secret : List Nat) :
    isBytes (get_sym_key_for_doc doc_id secret) :=
  sha256_isBytes _

theorem AESWriter.write_write (w : AESWriter) (a b : List Nat) :
    (w.write a).write b = w.write (a ++ b) := by
  simp only [AESWriter.write, List.append_assoc, AESWriter.mk.injEq, true_and,
    List.length_append]
  constructor
  · rw [xcrypt_append]
  · trivial

theorem AESWriter.write_nil (w : AESWriter) : w.write [] = w := by
  simp [AESWriter.write, xcrypt]

theorem producerWriteLoop_eq_write (w : AESWriter) (content : List Nat) :
    producerWriteLoop w content = w.write content := by
  by_cases h : content = []
  · rw [producerWriteLoop, dif_pos h, h, AESWriter.write_nil]
  · rw [producerWriteLoop, dif_neg h]
    rw [producerWriteLoop_eq_write (w.write (content.take 65536)) (content.drop 65536)]
    rw [AESWriter.write_write, List.take_append_drop]
termination_by content.length
decreasing_by
  have hp : 0 < content.length := List.length_pos.mpr h
  simp
  omega

theorem decryptWriteLoop_eq_write (w : AESWriter) (fd : List Nat) :
    decryptWriteLoop w fd = w.write (decodeChunks fd) := by
  by_cases h : fd = []
  · rw [decryptWriteLoop, dif_pos h, decodeChunks, dif_pos h, AESWriter.write_nil]
  · rw [decryptWriteLoop, dif_neg h, decodeChunks, dif_neg h]
    rw [decryptWriteLoop_eq_write (w.write (b64decode (fd.take 65536))) (fd.drop 65536)]
    rw [AESWriter.write_write]
termination_by fd.length
decreasing_by
  have hp : 0 < fd.length := List.length_pos.mpr h
  simp
  omega

theorem isBytes_append (a b : List Nat) (ha : isBytes a) (hb : isBytes b) :
    isBytes (a ++ b) := by
  intro x hx
  rcases List.mem_append.mp hx with h | h
  · exact ha x h
  · exact hb x h

theorem isBytes_replicate (n v : Nat) (h : v < 256) : isBytes (List.replicate n v) := by
  intro x hx
  rw [List.eq_of_mem_replicate hx]
  exact h

theorem isBytes_take (n : Nat) (l : List Nat) (h : isBytes l) : isBytes (l.take n) :=
  fun x hx => h x (List.mem_of_mem_take hx)

theorem qBytes_isBytes (n : Nat) : isBytes (qBytes n) := by
  intro x hx
  simp only [qBytes, List.mem_map] at hx
  obtain ⟨k, _, hk⟩ := hx
  subst hk
  exact Nat.mod_lt _ (by norm_num)

theorem fixedBytes_isBytes (w : Nat) (s : List Nat) (h : isBytes s) :
    isBytes (fixedBytes w s) :=
  isBytes_append _ _ (isBytes_take w s h) (isBytes_replicate _ 0 (by norm_num))

theorem pascal255_isBytes (s : List Nat) (h : isBytes s) : isBytes (pascal255 s) := by
  intro x hx
  simp only [pascal255, List.mem_cons] at hx
  rcases hx with hx | hx
  · subst hx; omega
  · exact isBytes_append _ _ (isBytes_take 254 s h)
      (isBytes_replicate _ 0 (by norm_num)) x hx

theorem packPreamble_isBytes (sch meth ts : Nat) (iv docId rev : List Nat) (size : Nat)
    (hiv : isBytes iv) (hd : isBytes docId) (hr : isBytes rev) :
    isBytes (packPreamble sch meth ts iv docId rev size) := by
  unfold packPreamble packLegacyPreamble
  refine isBytes_append _ _ (isBytes_append _ _ (by decide) ?_) ?_
  · refine isBytes_append _ _ ?_ ?_
    · intro x hx
      simp only [List.mem_cons] at hx
      rcases hx with hx | hx
      · subst hx; exact Nat.mod_lt _ (by norm_num)
      rcases hx with hx | hx
      · subst hx; exact Nat.mod_lt _ (by norm_num)
      · simp at hx
    refine isBytes_append _ _ (isBytes_replicate _ 0 (by norm_num)) ?_
    refine isBytes_append _ _ (qBytes_isBytes ts) ?_
    refine isBytes_append _ _ (fixedBytes_isBytes 16 iv hiv) ?_
    exact isBytes_append _ _ (pascal255_isBytes docId hd) (pascal255_isBytes rev hr)
  · exact isBytes_append _ _ (isBytes_replicate 2 0 (by norm_num)) (qBytes_isBytes size)

theorem packPreamble_ne_nil (sch meth ts : Nat) (iv docId rev : List Nat) (size : Nat) :
    packPreamble sch meth ts iv docId rev size ≠ [] := by
  intro h
  have := packPreamble_length sch meth ts iv docId rev size
  rw [h] at this
  simp at this

/-- Closed form of `blobEncrypt` for a non-empty secret. -/
theorem blobEncrypt_closed (docInfo : DocInfo) (content secret ivEntropy : List Nat)
    (armor : Bool) (now : Nat) (hs : secret ≠ []) :
    blobEncrypt docInfo content secret armor ivEntropy now =
      .ok (b64encode (packPreamble 1 2 now ivEntropy docInfo.doc_id docInfo.rev
          content.length) ++ SEPARATOR ::
        (if armor
         then b64encode
           (xcrypt (get_sym_key_for_doc docInfo.doc_id secret) ivEntropy 0 content ++
            gcmTag (get_sym_key_for_doc docInfo.doc_id secret) ivEntropy
              (packPreamble 1 2 now ivEntropy docInfo.doc_id docInfo.rev content.length)
              (xcrypt (get_sym_key_for_doc docInfo.doc_id secret) ivEntropy 0 content))
         else xcrypt (get_sym_key_for_doc docInfo.doc_id secret) ivEntropy 0 content ++
            gcmTag (get_sym_key_for_doc docInfo.doc_id secret) ivEntropy
              (packPreamble 1 2 now ivEntropy docInfo.doc_id docInfo.rev content.length)
              (xcrypt (get_sym_key_for_doc docInfo.doc_id secret) ivEntropy 0 content))) := by
  unfold blobEncrypt
  rw [if_neg hs]
  unfold AESWriter.init
  rw [if_neg (by simp [get_sym_key_length])]
  rw [if_neg (by simp)]
  simp [Except.bind, producerWriteLoop_eq_write, AESWriter.authenticate, AESWriter.write,
    AESWriter.finish, AESWriter.decrypting, tagTruthy, AESWriter.tagAttr,
    ENC_SCHEME_symkey, ENC_METHOD_aes_256_gcm]

/-- `decodePreamble` on a currently packed preamble carrying the expected
identity. -/
theorem decodePreamble_pack (did rid : List Nat) (ts : Nat) (iv : List Nat) (size : Nat)
    (hiv : iv.length = 16) (hd : did.length ≤ 254) (hr : rid.length ≤ 254) :
    decodePreamble did rid (packPreamble 1 2 ts iv did rid size) =
      .ok ({ magic := BLOB_SIGNATURE_MAGIC, scheme := 1, method := 2, ts := ts % 2 ^ 64,
             iv := iv, doc_id := did, rev := rid, size := some (size % 2 ^ 64) }, false) := by
  unfold decodePreamble
  rw [packPreamble_length]
  rw [if_neg (by norm_num), if_pos rfl]
  rw [unpackPreamble_pack 1 2 ts iv did rid size hiv hd hr]
  simp [checkPreambleFields, BLOB_SIGNATURE_MAGIC, ENC_SCHEME_symkey, ENC_METHOD_aes_256_gcm]

/-- `consume_preamble` on a well-formed armored blob reduces to preamble
decoding plus the fd rewrite. -/
theorem consume_preamble_wellformed (did rid pre payload : List Nat)
    (hpre : isBytes pre) (hprene : pre ≠ []) (hpay : payload ≠ [])
    (hpays : ∀ b ∈ payload, isPySpace b = false) :
    consume_preamble did rid (b64encode pre ++ SEPARATOR :: payload) =
      (decodePreamble did rid pre).bind fun pr =>
        .ok { preamble := pre, iv := pr.1.iv, size := pr.1.size,
              fd := payload, legacyWarn := pr.2 } := by
  unfold consume_preamble SEPARATOR
  rw [splitWs_two (b64encode pre) payload hpay (b64encode_not_space pre) hpays
    (b64encode_ne_nil pre hprene)]
  have hfil : List.filter isB64Byte (b64encode pre) = b64encode pre :=
    List.filter_eq_self.mpr (b64encode_all_b64 pre)
  have hmod : (b64encode pre).length % 4 = 0 := by rw [b64encode_length]; omega
  simp [hfil, hmod, b64decode_b64encode pre hpre]

/-- Decrypting a blob produced by the encryptor pipeline returns the
cleartext and the declared size. -/
theorem blobDecrypt_roundtrip (docId rid c secret ivE : List Nat) (now : Nat)
    (hc : isBytes c) (hdB : isBytes docId) (hrB : isBytes rid) (hivB : isBytes ivE)
    (hdl : docId.length ≤ 254) (hrl : rid.length ≤ 254) (hivl : ivE.length = 16)
    (hs : secret ≠ []) :
    blobDecrypt ⟨docId, rid⟩
      (b64encode (packPreamble 1 2 now ivE docId rid c.length) ++ SEPARATOR ::
        b64encode (xcrypt (get_sym_key_for_doc docId secret) ivE 0 c ++
          gcmTag (get_sym_key_for_doc docId secret) ivE
            (packPreamble 1 2 now ivE docId rid c.length)
            (xcrypt (get_sym_key_for_doc docId secret) ivE 0 c)))
      secret true = .ok (c, some (c.length % 2 ^ 64)) := by
  have hkey : isBytes (get_sym_key_for_doc docId secret) := get_sym_key_isBytes docId secret
  have hct : isBytes (xcrypt (get_sym_key_for_doc docId secret) ivE 0 c) :=
    xcrypt_isBytes _ _ hkey hivB 0 c hc
  have hpreB : isBytes (packPreamble 1 2 now ivE docId rid c.length) :=
    packPreamble_isBytes 1 2 now ivE docId rid c.length hivB hdB hrB
  have htag : isBytes (gcmTag (get_sym_key_for_doc docId secret) ivE
      (packPreamble 1 2 now ivE docId rid c.length)
      (xcrypt (get_sym_key_for_doc docId secret) ivE 0 c)) :=
    gcmTag_isBytes _ _ _ _ hkey hivB hpreB hct
  have hpayB : isBytes (xcrypt (get_sym_key_for_doc docId secret) ivE 0 c ++
      gcmTag (get_sym_key_for_doc docId secret) ivE
        (packPreamble 1 2 now ivE docId rid c.length)
        (xcrypt (get_sym_key_for_doc docId secret) ivE 0 c)) :=
    isBytes_append _ _ hct htag
  have hpayne : xcrypt (get_sym_key_for_doc docId secret) ivE 0 c ++
      gcmTag (get_sym_key_for_doc docId secret) ivE
        (packPreamble 1 2 now ivE docId rid c.length)
        (xcrypt (get_sym_key_for_doc docId secret) ivE 0 c) ≠ [] := by
    intro h
    have := congrArg List.length h
    simp [List.length_append, gcmTag_length] at this
  have hivne : ivE ≠ [] := by
    intro h
    rw [h] at hivl
    simp at hivl
  unfold blobDecrypt blobDecryptorInit
  rw [if_neg hs, if_neg (by simp)]
  rw [consume_preamble_wellformed docId rid _ _ hpreB
    (packPreamble_ne_nil 1 2 now ivE docId rid c.length)
    (b64encode_ne_nil _ hpayne) (b64encode_not_space _)]
  rw [decodePreamble_pack docId rid now ivE c.length hivl hdl hrl]
  simp only [Except.bind]
  rw [if_neg (by
    push_neg
    exact ⟨packPreamble_ne_nil 1 2 now ivE docId rid c.length, hivne⟩)]
  unfold AESWriter.init
  rw [if_neg (by simp [get_sym_key_length])]
  rw [if_neg (by simp)]
  obtain ⟨v, vs, rfl⟩ : ∃ v vs, ivE = v :: vs := by
    cases ivE with
    | nil => simp at hivl
    | cons v vs => exact ⟨v, vs, rfl⟩
  simp only [Except.bind]
  rw [decryptWriteLoop_eq_write]
  simp only [AESWriter.authenticate]
  rw [decodeChunks_b64encode _ hpayB]
  simp only [AESWriter.write, AESWriter.finish, AESWriter.decrypting, tagTruthy,
    List.nil_append, List.length_nil]
  rw [if_neg (by simp)]
  rw [xcrypt_append]
  rw [xcrypt_xcrypt]
  have hXlen : (xcrypt (get_sym_key_for_doc docId secret) (v :: vs)
      (0 + (xcrypt (get_sym_key_for_doc docId secret) (v :: vs) 0 c).length)
      (gcmTag (get_sym_key_for_doc docId secret) (v :: vs)
        (packPreamble 1 2 now (v :: vs) docId rid c.length)
        (xcrypt (get_sym_key_for_doc docId secret) (v :: vs) 0 c))).length = 16 := by
    rw [xcrypt_length, gcmTag_length]
  have hlen2 : (c ++ xcrypt (get_sym_key_for_doc docId secret) (v :: vs)
      (0 + (xcrypt (get_sym_key_for_doc docId secret) (v :: vs) 0 c).length)
      (gcmTag (get_sym_key_for_doc docId secret) (v :: vs)
        (packPreamble 1 2 now (v :: vs) docId rid c.length)
        (xcrypt (get_sym_key_for_doc docId secret) (v :: vs) 0 c))).length =
      c.length + 16 := by
    rw [List.length_append, hXlen]
  have hXlen2 : (xcrypt (get_sym_key_for_doc docId secret) (v :: vs)
      ((xcrypt (get_sym_key_for_doc docId secret) (v :: vs) 0 c).length)
      (gcmTag (get_sym_key_for_doc docId secret) (v :: vs)
        (packPreamble 1 2 now (v :: vs) docId rid c.length)
        (xcrypt (get_sym_key_for_doc docId secret) (v :: vs) 0 c))).length = 16 := by
    rw [xcrypt_length, gcmTag_length]
  have hnlt : ¬ (c.length + 16 < 16) := by omega
  simp [hXlen2, hnlt, List.take_left]

/-! ## Claims -/

/-- C7 (amended): constructing `AESWriter` with a key whose length is not
32 bytes always fails, for every mode and tag argument — but with
`EncryptionDecryptionError("key is not 256 bits")`, not a
`KeyLengthError` (which does not exist in the source). -/
theorem C7_key_length_check (key : List Nat) (iv buf tag : Option (List Nat))
    (mode : CipherMode) (ivEntropy : List Nat) (h : key.length ≠ 32) :
    AESWriter.init key iv buf tag mode ivEntropy =
      .error (.EncryptionDecryptionError "key is not 256 bits") := by
  unfold AESWriter.init
  rw [if_pos h]

theorem C7_key_length_check_witness :
    (List.replicate 31 0 : List Nat).length ≠ 32 ∧
      AESWriter.init (List.replicate 31 0) none none (some (List.replicate 16 1)) .CTR [] =
        .error (.EncryptionDecryptionError "key is not 256 bits") :=
  ⟨by decide, C7_key_length_check (List.replicate 31 0) none none
    (some (List.replicate 16 1)) .CTR [] (by decide)⟩

/-- C7 counterexample: the failure is an `EncryptionDecryptionError`,
which is not the `KeyLengthError` the claim names. -/
theorem C7_counterexample :
    AESWriter.init (List.replicate 31 0) none none none .GCM [] =
      .error (.EncryptionDecryptionError "key is not 256 bits") ∧
    (PyErr.EncryptionDecryptionError "key is not 256 bits" ≠ PyErr.KeyLengthError) := by
  constructor
  · decide
  · decide

/-- C8: `write_blob` answers 409 Conflict when a blob already exists at
the path, before writing anything: the returned filesystem is the input
filesystem, so the stored blob is unchanged. -/
theorem C8_write_blob_conflict (fs : FS) (user blobId body existing : List Nat)
    (quota : Nat) (path : List (List Nat)) (hp : get_path user blobId = .ok path)
    (he : fsLookup fs path = some existing) :
    write_blob fs user blobId body quota = .ok (fs, .conflict) ∧
      fsLookup fs path = some existing := by
  unfold write_blob
  rw [hp]
  simp [Except.bind, he]

theorem C8_write_blob_conflict_witness :
    get_path [117] [98] = .ok [[117], [98], [98], [98], [98]] ∧
    fsLookup [([[117], [98], [98], [98], [98]], [1, 2, 3])] [[117], [98], [98], [98], [98]] =
      some [1, 2, 3] ∧
    write_blob [([[117], [98], [98], [98], [98]], [1, 2, 3])] [117] [98] [9, 9] 204800 =
      .ok ([([[117], [98], [98], [98], [98]], [1, 2, 3])], .conflict) :=
  ⟨by decide, by decide,
    (C8_write_blob_conflict [([[117], [98], [98], [98], [98]], [1, 2, 3])] [117] [98] [9, 9]
      [1, 2, 3] 204800 [[117], [98], [98], [98], [98]] (by decide) (by decide)).1⟩

/-- C9: with a non-empty secret, constructing a `BlobDecryptor` with
`armor=False` raises `NotImplementedError` at construction time, while
`BlobEncryptor` accepts `armor=False` and encrypts successfully. -/
theorem C9_unarmored_rejected (di : DocInfo) (blob secret : List Nat) (hs : secret ≠ []) :
    blobDecryptorInit di blob secret false = .error .NotImplementedError ∧
    (∀ (c ivE : List Nat) (now : Nat),
      (blobEncrypt di c secret false ivE now).isOk = true) := by
  constructor
  · unfold blobDecryptorInit
    rw [if_neg hs]
    simp
  · intro c ivE now
    rw [blobEncrypt_closed di c secret ivE false now hs]
    rfl

theorem C9_unarmored_rejected_witness :
    (List.replicate 96 65 : List Nat) ≠ [] ∧
    blobDecryptorInit ⟨[100], [49]⟩ [1, 2] (List.replicate 96 65) false =
      .error .NotImplementedError ∧
    (blobEncrypt ⟨[100], [49]⟩ [5] (List.replicate 96 65) false (List.range 16) 0).isOk =
      true :=
  ⟨by decide,
    (C9_unarmored_rejected ⟨[100], [49]⟩ [1, 2] (List.replicate 96 65) (by decide)).1,
    (C9_unarmored_rejected ⟨[100], [49]⟩ [1, 2] (List.replicate 96 65) (by decide)).2
      [5] (List.range 16) 0⟩

/-- C3 (amended): for any armor flag the encryptor emits
`b64(preamble)`, one separator byte, then the payload — base64-armored
ciphertext-plus-tag when `armor` is true, raw ciphertext-plus-tag when it
is false.  The preamble is base64-encoded and the separator written in
both modes. -/
theorem C3_framing (docInfo : DocInfo) (content secret ivEntropy : List Nat)
    (armor : Bool) (now : Nat) (hs : secret ≠ []) :
    blobEncrypt docInfo content secret armor ivEntropy now =
      .ok (b64encode (packPreamble 1 2 now ivEntropy docInfo.doc_id docInfo.rev
          content.length) ++ SEPARATOR ::
        (if armor
         then b64encode
           (xcrypt (get_sym_key_for_doc docInfo.doc_id secret) ivEntropy 0 content ++
            gcmTag (get_sym_key_for_doc docInfo.doc_id secret) ivEntropy
              (packPreamble 1 2 now ivEntropy docInfo.doc_id docInfo.rev content.length)
              (xcrypt (get_sym_key_for_doc docInfo.doc_id secret) ivEntropy 0 content))
         else xcrypt (get_sym_key_for_doc docInfo.doc_id secret) ivEntropy 0 content ++
            gcmTag (get_sym_key_for_doc docInfo.doc_id secret) ivEntropy
              (packPreamble 1 2 now ivEntropy docInfo.doc_id docInfo.rev content.length)
              (xcrypt (get_sym_key_for_doc docInfo.doc_id secret) ivEntropy 0 content))) :=
  blobEncrypt_closed docInfo content secret ivEntropy armor now hs

theorem C3_framing_witness :
    (List.replicate 96 65 : List Nat) ≠ [] ∧
    blobEncrypt ⟨[100], [49]⟩ [104] (List.replicate 96 65) false (List.range 16) 0 =
      .ok (b64encode (packPreamble 1 2 0 (List.range 16) [100] [49] 1) ++ SEPARATOR ::
        (if false
         then b64encode
           (xcrypt (get_sym_key_for_doc [100] (List.replicate 96 65)) (List.range 16) 0 [104] ++
            gcmTag (get_sym_key_for_doc [100] (List.replicate 96 65)) (List.range 16)
              (packPreamble 1 2 0 (List.range 16) [100] [49] 1)
              (xcrypt (get_sym_key_for_doc [100] (List.replicate 96 65)) (List.range 16) 0 [104]))
         else xcrypt (get_sym_key_for_doc [100] (List.replicate 96 65)) (List.range 16) 0 [104] ++
            gcmTag (get_sym_key_for_doc [100] (List.replicate 96 65)) (List.range 16)
              (packPreamble 1 2 0 (List.range 16) [100] [49] 1)
              (xcrypt (get_sym_key_for_doc [100] (List.replicate 96 65)) (List.range 16) 0 [104]))) :=
  ⟨by decide,
    C3_framing ⟨[100], [49]⟩ [104] (List.replicate 96 65) (List.range 16) false 0 (by decide)⟩

/-- C3 counterexample: with `armor=False` the emitted blob still starts
with the base64 preamble and the separator; it is not the raw
`preamble ++ ciphertext ++ tag` concatenation the claim describes. -/
theorem C3_counterexample :
    blobEncrypt ⟨[100], [49]⟩ [104, 105] (List.replicate 96 65) false (List.range 16) 0 =
      .ok (b64encode (packPreamble 1 2 0 (List.range 16) [100] [49] 2) ++ SEPARATOR ::
        (xcrypt (get_sym_key_for_doc [100] (List.replicate 96 65)) (List.range 16) 0
            [104, 105] ++
          gcmTag (get_sym_key_for_doc [100] (List.replicate 96 65)) (List.range 16)
            (packPreamble 1 2 0 (List.range 16) [100] [49] 2)
            (xcrypt (get_sym_key_for_doc [100] (List.replicate 96 65)) (List.range 16) 0
              [104, 105]))) ∧
    b64encode (packPreamble 1 2 0 (List.range 16) [100] [49] 2) ++ SEPARATOR ::
        (xcrypt (get_sym_key_for_doc [100] (List.replicate 96 65)) (List.range 16) 0
            [104, 105] ++
          gcmTag (get_sym_key_for_doc [100] (List.replicate 96 65)) (List.range 16)
            (packPreamble 1 2 0 (List.range 16) [100] [49] 2)
            (xcrypt (get_sym_key_for_doc [100] (List.replicate 96 65)) (List.range 16) 0
              [104, 105])) ≠
      packPreamble 1 2 0 (List.range 16) [100] [49] 2 ++
        (xcrypt (get_sym_key_for_doc [100] (List.replicate 96 65)) (List.range 16) 0
            [104, 105] ++
          gcmTag (get_sym_key_for_doc [100] (List.replicate 96 65)) (List.range 16)
            (packPreamble 1 2 0 (List.range 16) [100] [49] 2)
            (xcrypt (get_sym_key_for_doc [100] (List.replicate 96 65)) (List.range 16) 0
              [104, 105])) := by
  constructor
  · rw [blobEncrypt_closed ⟨[100], [49]⟩ [104, 105] (List.replicate 96 65) (List.range 16)
      false 0 (by decide)]
    rfl
  · decide

/-- C4 (amended): key derivation is HMAC-SHA256 keyed with
`secret[SECRET_LENGTH:]` over the doc id; an absent (empty) secret makes
the encryptor and decryptor fail with
`EncryptionDecryptionError("no secret given")`; but a non-empty secret
shorter than 64 bytes is accepted (the HMAC key half is then empty) — no
`ConfigurationError` exists in the source. -/
theorem C4_key_derivation :
    (∀ doc_id secret : List Nat,
      get_sym_key_for_doc doc_id secret = hmac_sha256 (secret.drop SECRET_LENGTH) doc_id) ∧
    (∀ (di : DocInfo) (c : List Nat) (armor : Bool) (ivE : List Nat) (now : Nat),
      blobEncrypt di c [] armor ivE now =
        .error (.EncryptionDecryptionError "no secret given")) ∧
    (∀ (di : DocInfo) (blob : List Nat) (armor : Bool),
      blobDecryptorInit di blob [] armor =
        .error (.EncryptionDecryptionError "no secret given")) ∧
    (∀ (di : DocInfo) (c secret ivE : List Nat) (now : Nat), secret ≠ [] →
      (blobEncrypt di c secret true ivE now).isOk = true) := by
  refine ⟨fun d s => rfl, fun di c a ivE now => by unfold blobEncrypt; simp,
    fun di blob a => by unfold blobDecryptorInit; simp,
    fun di c secret ivE now hs => ?_⟩
  rw [blobEncrypt_closed di c secret ivE true now hs]
  rfl

theorem C4_key_derivation_witness :
    (List.replicate 10 65 : List Nat) ≠ [] ∧
    (blobEncrypt ⟨[100], [49]⟩ [104] (List.replicate 10 65) true (List.range 16) 0).isOk =
      true :=
  ⟨by decide,
    C4_key_derivation.2.2.2 ⟨[100], [49]⟩ [104] (List.replicate 10 65) (List.range 16) 0
      (by decide)⟩

/-- C4 counterexample: a 10-byte secret is accepted — encryption succeeds
with the key derived from the empty second half, instead of failing with
the `ConfigurationError` the claim requires for secrets shorter than 64
bytes. -/
theorem C4_counterexample :
    (blobEncrypt ⟨[100], [49]⟩ [104] (List.replicate 10 65) true (List.range 16) 0).isOk =
      true ∧
    get_sym_key_for_doc [100] (List.replicate 10 65) = hmac_sha256 [] [100] := by
  constructor
  · rw [blobEncrypt_closed ⟨[100], [49]⟩ [104] (List.replicate 10 65) (List.range 16)
      true 0 (by decide)]
    rfl
  · decide

/-- C5 (amended): each preamble-validation mismatch raises `InvalidBlob`,
but with these reason strings: a bare `InvalidBlob` for a wrong magic,
`"invalid scheme"`, `"invalid encryption scheme"`, and
`"invalid revision"` for a rev mismatch — and also `"invalid revision"`
for a doc_id mismatch (a copy-paste slip in the source; no
`bad magic`/`bad scheme`/`bad method`/`revision mismatch`/`id mismatch`
strings exist). -/
theorem C5_validation_messages (did rid p : List Nat) (h : p.length = 552) :
    ((unpackPreamble p).magic ≠ BLOB_SIGNATURE_MAGIC →
      decodePreamble did rid p = .error .InvalidBlobPlain) ∧
    ((unpackPreamble p).magic = BLOB_SIGNATURE_MAGIC →
      (unpackPreamble p).scheme ≠ ENC_SCHEME_symkey →
      decodePreamble did rid p = .error (.InvalidBlob "invalid scheme")) ∧
    ((unpackPreamble p).magic = BLOB_SIGNATURE_MAGIC →
      (unpackPreamble p).scheme = ENC_SCHEME_symkey →
      (unpackPreamble p).method ≠ ENC_METHOD_aes_256_gcm →
      decodePreamble did rid p = .error (.InvalidBlob "invalid encryption scheme")) ∧
    ((unpackPreamble p).magic = BLOB_SIGNATURE_MAGIC →
      (unpackPreamble p).scheme = ENC_SCHEME_symkey →
      (unpackPreamble p).method = ENC_METHOD_aes_256_gcm →
      (unpackPreamble p).rev ≠ rid →
      decodePreamble did rid p = .error (.InvalidBlob "invalid revision")) ∧
    ((unpackPreamble p).magic = BLOB_SIGNATURE_MAGIC →
      (unpackPreamble p).scheme = ENC_SCHEME_symkey →
      (unpackPreamble p).method = ENC_METHOD_aes_256_gcm →
      (unpackPreamble p).rev = rid →
      (unpackPreamble p).doc_id ≠ did →
      decodePreamble did rid p = .error (.InvalidBlob "invalid revision")) := by
  refine ⟨?_, ?_, ?_, ?_, ?_⟩
  · intro hm
    simp [decodePreamble, h, checkPreambleFields, hm]
  · intro hm hsch
    simp [decodePreamble, h, checkPreambleFields, hm, hsch]
  · intro hm hsch hmeth
    simp [decodePreamble, h, checkPreambleFields, hm, hsch, hmeth]
  · intro hm hsch hmeth hrev
    simp [decodePreamble, h, checkPreambleFields, hm, hsch, hmeth, hrev]
  · intro hm hsch hmeth hrev hdoc
    simp [decodePreamble, h, checkPreambleFields, hm, hsch, hmeth, hrev, hdoc]

theorem C5_validation_messages_witness :
    (packPreamble 1 2 0 (List.range 16) [100] [114] 3).length = 552 ∧
    decodePreamble [120] [114] (packPreamble 1 2 0 (List.range 16) [100] [114] 3) =
      .error (.InvalidBlob "invalid revision") :=
  ⟨by decide,
    (C5_validation_messages [120] [114] (packPreamble 1 2 0 (List.range 16) [100] [114] 3)
      (by decide)).2.2.2.2 (by decide) (by decide) (by decide) (by decide) (by decide)⟩

/-- C5 counterexample: a doc_id mismatch is reported as
`InvalidBlob("invalid revision")`, not as the `id mismatch` reason tag
the claim names. -/
theorem C5_counterexample :
    decodePreamble [120] [114] (packPreamble 1 2 0 (List.range 16) [100] [114] 3) =
      .error (.InvalidBlob "invalid revision") ∧
    (PyErr.InvalidBlob "invalid revision" ≠ PyErr.InvalidBlob "id mismatch") := by
  constructor
  · decide
  · decide

/-- C6: preamble decoding dispatches on the exact byte length: 542 bytes
decodes as the legacy layout with the compatibility warning and no size;
552 bytes decodes as the current layout and captures the size field; any
other length raises `InvalidBlob`. -/
theorem C6_length_dispatch (did rid p : List Nat) :
    (p.length ≠ 542 → p.length ≠ 552 →
      decodePreamble did rid p = .error (.InvalidBlobSize p.length)) ∧
    (p.length = 542 → ∀ u w, decodePreamble did rid p = .ok (u, w) →
      u.size = none ∧ w = true) ∧
    (p.length = 552 → ∀ u w, decodePreamble did rid p = .ok (u, w) →
      u.size = some (unpackQ ((p.drop 544).take 8)) ∧ w = false) := by
  refine ⟨?_, ?_, ?_⟩
  · intro h1 h2
    simp [decodePreamble, h1, h2]
  · intro h u w hok
    unfold decodePreamble at hok
    rw [if_pos h] at hok
    cases hc : checkPreambleFields did rid (unpackLegacyPreamble p) with
    | some e => rw [hc] at hok; simp at hok
    | none =>
      rw [hc] at hok
      simp at hok
      obtain ⟨hu, hw⟩ := hok
      subst hu
      subst hw
      exact ⟨rfl, rfl⟩
  · intro h u w hok
    unfold decodePreamble at hok
    rw [if_neg (by omega), if_pos h] at hok
    cases hc : checkPreambleFields did rid (unpackPreamble p) with
    | some e => rw [hc] at hok; simp at hok
    | none =>
      rw [hc] at hok
      simp at hok
      obtain ⟨hu, hw⟩ := hok
      subst hu
      subst hw
      exact ⟨rfl, rfl⟩

theorem C6_length_dispatch_witness :
    (packLegacyPreamble 1 2 0 (List.range 16) [100] [49]).length = 542 ∧
    ((unpackLegacyPreamble (packLegacyPreamble 1 2 0 (List.range 16) [100] [49])).size =
        none ∧
      true = true) :=
  ⟨by decide,
    (C6_length_dispatch [100] [49] (packLegacyPreamble 1 2 0 (List.range 16) [100] [49])).2.1
      (by decide)
      (unpackLegacyPreamble (packLegacyPreamble 1 2 0 (List.range 16) [100] [49])) true
      (by decide)⟩

/-- C10: constructing a `BlobDecryptor` destructively rewrites the
caller-supplied ciphertext fd: after `_consume_preamble` the file holds
only the payload segment — the encoded preamble and the separator are
gone — so the original blob bytes are not preserved. -/
theorem C10_fd_rewritten (did rid pre payload : List Nat)
    (hpre : isBytes pre) (hprene : pre ≠ []) (hpay : payload ≠ [])
    (hpays : ∀ b ∈ payload, isPySpace b = false) :
    ∀ di, consume_preamble did rid (b64encode pre ++ SEPARATOR :: payload) = .ok di →
      di.fd = payload ∧ di.fd ≠ b64encode pre ++ SEPARATOR :: payload := by
  intro di hdi
  rw [consume_preamble_wellformed did rid pre payload hpre hprene hpay hpays] at hdi
  cases hdp : decodePreamble did rid pre with
  | error e =>
    rw [hdp] at hdi
    simp [Except.bind] at hdi
  | ok pr =>
    rw [hdp] at hdi
    simp only [Except.bind, Except.ok.injEq] at hdi
    subst hdi
    refine ⟨rfl, ?_⟩
    intro he
    have hlen := congrArg List.length he
    simp [List.length_append] at hlen
    omega

theorem C10_fd_rewritten_witness :
    isBytes (packPreamble 1 2 0 (List.range 16) [100] [49] 3) ∧
    consume_preamble [100] [49]
      (b64encode (packPreamble 1 2 0 (List.range 16) [100] [49] 3) ++ SEPARATOR :: [65]) =
      .ok { preamble := packPreamble 1 2 0 (List.range 16) [100] [49] 3
            iv := List.range 16
            size := some 3
            fd := [65]
            legacyWarn := false } ∧
    ([65] : List Nat) = [65] ∧
    ([65] : List Nat) ≠
      b64encode (packPreamble 1 2 0 (List.range 16) [100] [49] 3) ++ SEPARATOR :: [65] :=
  ⟨by decide,
    by
      rw [consume_preamble_wellformed [100] [49] _ [65] (by decide) (by decide) (by decide)
        (by decide)]
      decide,
    (C10_fd_rewritten [100] [49] (packPreamble 1 2 0 (List.range 16) [100] [49] 3) [65]
      (by decide) (by decide) (by decide) (by decide)
      { preamble := packPreamble 1 2 0 (List.range 16) [100] [49] 3
        iv := List.range 16
        size := some 3
        fd := [65]
        legacyWarn := false }
      (by
        rw [consume_preamble_wellformed [100] [49] _ [65] (by decide) (by decide) (by decide)
          (by decide)]
        decide))⟩

/-- C2: round-trip — for every cleartext byte string (including the empty
one), every doc_id and rev that fit the 255-byte length-prefixed preamble
fields, and every non-empty secret, decrypting the blob produced by the
encryptor with the same secret and doc_info yields exactly the cleartext,
and the declared size equals its length. -/
theorem C2_roundtrip (docId rid c secret ivE : List Nat) (now : Nat)
    (hc : isBytes c) (hdB : isBytes docId) (hrB : isBytes rid) (hivB : isBytes ivE)
    (hdl : docId.length ≤ 254) (hrl : rid.length ≤ 254) (hivl : ivE.length = 16)
    (hs : secret ≠ []) (hcl : c.length < 2 ^ 64) :
    ∃ blob, blobEncrypt ⟨docId, rid⟩ c secret true ivE now = .ok blob ∧
      blobDecrypt ⟨docId, rid⟩ blob secret true = .ok (c, some c.length) := by
  refine ⟨_, blobEncrypt_closed ⟨docId, rid⟩ c secret ivE true now hs, ?_⟩
  have h := blobDecrypt_roundtrip docId rid c secret ivE now hc hdB hrB hivB hdl hrl hivl hs
  rw [Nat.mod_eq_of_lt hcl] at h
  simpa using h

theorem C2_roundtrip_witness :
    isBytes [104, 105] ∧ (List.replicate 96 65 : List Nat) ≠ [] ∧
    (∃ blob,
      blobEncrypt ⟨[68], [49]⟩ [104, 105] (List.replicate 96 65) true (List.range 16) 0 =
        .ok blob ∧
      blobDecrypt ⟨[68], [49]⟩ blob (List.replicate 96 65) true =
        .ok ([104, 105], some 2)) :=
  ⟨by decide, by decide,
    C2_roundtrip [68] [49] [104, 105] (List.replicate 96 65) (List.range 16) 0
      (by decide) (by decide) (by decide) (by decide) (by decide) (by decide) (by decide)
      (by decide) (by decide)⟩

/-- The decryptor accepts ANY payload of at least 16 bytes behind a valid
preamble: since `BlobDecryptor` constructs its `AESWriter` with
`tag=None`, the cipher is an encryptor and `finalize` never verifies a
tag — decryption returns the XOR-stream of the payload minus its last 16
bytes, whatever the payload is. -/
theorem blobDecrypt_any_payload (docId rid payload secret ivE : List Nat) (ts size : Nat)
    (hpayB : isBytes payload) (hpaylen : 16 ≤ payload.length)
    (hdB : isBytes docId) (hrB : isBytes rid)
    (hdl : docId.length ≤ 254) (hrl : rid.length ≤ 254)
    (hivB : isBytes ivE) (hivl : ivE.length = 16) (hs : secret ≠ []) :
    blobDecrypt ⟨docId, rid⟩
      (b64encode (packPreamble 1 2 ts ivE docId rid size) ++ SEPARATOR :: b64encode payload)
      secret true =
      .ok ((xcrypt (get_sym_key_for_doc docId secret) ivE 0 payload).take
        (payload.length - 16), some (size % 2 ^ 64)) := by
  have hpayne : payload ≠ [] := by
    intro h
    rw [h] at hpaylen
    simp at hpaylen
  have hpreB : isBytes (packPreamble 1 2 ts ivE docId rid size) :=
    packPreamble_isBytes 1 2 ts ivE docId rid size hivB hdB hrB
  have hivne : ivE ≠ [] := by
    intro h
    rw [h] at hivl
    simp at hivl
  unfold blobDecrypt blobDecryptorInit
  rw [if_neg hs, if_neg (by simp)]
  rw [consume_preamble_wellformed docId rid _ _ hpreB
    (packPreamble_ne_nil 1 2 ts ivE docId rid size)
    (b64encode_ne_nil _ hpayne) (b64encode_not_space _)]
  rw [decodePreamble_pack docId rid ts ivE size hivl hdl hrl]
  simp only [Except.bind]
  rw [if_neg (by
    push_neg
    exact ⟨packPreamble_ne_nil 1 2 ts ivE docId rid size, hivne⟩)]
  unfold AESWriter.init
  rw [if_neg (by simp [get_sym_key_length])]
  rw [if_neg (by simp)]
  obtain ⟨v, vs, rfl⟩ : ∃ v vs, ivE = v :: vs := by
    cases ivE with
    | nil => simp at hivl
    | cons v vs => exact ⟨v, vs, rfl⟩
  simp only [Except.bind]
  rw [decryptWriteLoop_eq_write]
  simp only [AESWriter.authenticate]
  rw [decodeChunks_b64encode _ hpayB]
  simp only [AESWriter.write, AESWriter.finish, AESWriter.decrypting, tagTruthy,
    List.nil_append, List.length_nil]
  rw [if_neg (by simp)]
  have hxlen : (xcrypt (get_sym_key_for_doc docId secret) (v :: vs) 0 payload).length =
      payload.length := xcrypt_length _ _ _ _
  have hnlt : ¬ ((xcrypt (get_sym_key_for_doc docId secret) (v :: vs) 0 payload).length <
      16) := by
    rw [hxlen]
    omega
  simp [hnlt, hxlen]
  omega

/-- C1: the code never verifies the GCM tag on decryption — flipping a
bit in the tag region of a produced blob makes `decrypt` return the
original cleartext successfully, and flipping a bit in the ciphertext
region returns a silently corrupted cleartext, instead of the
`InvalidBlob` tag-verification failure the claim (and the class
docstring, and the dead `except InvalidTag` handler in `_end_stream`)
promise.  `BlobDecryptor` passes `tag=None` to `AESWriter`, whose
truthiness test then picks `cipher.encryptor()`, and a GCM encryptor
never raises `InvalidTag` at finalize. -/
theorem C1_tag_verification_skipped :
    blobEncrypt ⟨[100], [49]⟩ [104, 101, 108, 108, 111] (List.replicate 96 65) true
        (List.range 16) 0 =
      .ok (b64encode (packPreamble 1 2 0 (List.range 16) [100] [49] 5) ++ SEPARATOR ::
        b64encode
          (xcrypt (get_sym_key_for_doc [100] (List.replicate 96 65)) (List.range 16) 0
              [104, 101, 108, 108, 111] ++
            gcmTag (get_sym_key_for_doc [100] (List.replicate 96 65)) (List.range 16)
              (packPreamble 1 2 0 (List.range 16) [100] [49] 5)
              (xcrypt (get_sym_key_for_doc [100] (List.replicate 96 65)) (List.range 16) 0
                [104, 101, 108, 108, 111]))) ∧
    flipBit 0 (gcmTag (get_sym_key_for_doc [100] (List.replicate 96 65)) (List.range 16)
        (packPreamble 1 2 0 (List.range 16) [100] [49] 5)
        (xcrypt (get_sym_key_for_doc [100] (List.replicate 96 65)) (List.range 16) 0
          [104, 101, 108, 108, 111])) ≠
      gcmTag (get_sym_key_for_doc [100] (List.replicate 96 65)) (List.range 16)
        (packPreamble 1 2 0 (List.range 16) [100] [49] 5)
        (xcrypt (get_sym_key_for_doc [100] (List.replicate 96 65)) (List.range 16) 0
          [104, 101, 108, 108, 111]) ∧
    blobDecrypt ⟨[100], [49]⟩
      (b64encode (packPreamble 1 2 0 (List.range 16) [100] [49] 5) ++ SEPARATOR ::
        b64encode
          (xcrypt (get_sym_key_for_doc [100] (List.replicate 96 65)) (List.range 16) 0
              [104, 101, 108, 108, 111] ++
            flipBit 0 (gcmTag (get_sym_key_for_doc [100] (List.replicate 96 65))
              (List.range 16) (packPreamble 1 2 0 (List.range 16) [100] [49] 5)
              (xcrypt (get_sym_key_for_doc [100] (List.replicate 96 65)) (List.range 16) 0
                [104, 101, 108, 108, 111]))))
      (List.replicate 96 65) true = .ok ([104, 101, 108, 108, 111], some 5) ∧
    blobDecrypt ⟨[100], [49]⟩
      (b64encode (packPreamble 1 2 0 (List.range 16) [100] [49] 5) ++ SEPARATOR ::
        b64encode
          (flipBit 0 (xcrypt (get_sym_key_for_doc [100] (List.replicate 96 65))
              (List.range 16) 0 [104, 101, 108, 108, 111]) ++
            gcmTag (get_sym_key_for_doc [100] (List.replicate 96 65)) (List.range 16)
              (packPreamble 1 2 0 (List.range 16) [100] [49] 5)
              (xcrypt (get_sym_key_for_doc [100] (List.replicate 96 65)) (List.range 16) 0
                [104, 101, 108, 108, 111])))
      (List.replicate 96 65) true = .ok ([105, 101, 108, 108, 111], some 5) := by
  refine ⟨?_, by decide, ?_, ?_⟩
  · rw [blobEncrypt_closed ⟨[100], [49]⟩ [104, 101, 108, 108, 111] (List.replicate 96 65)
      (List.range 16) true 0 (by decide)]
    rfl
  · rw [blobDecrypt_any_payload [100] [49] _ (List.replicate 96 65) (List.range 16) 0 5
      (by decide) (by decide) (by decide) (by decide) (by decide) (by decide) (by decide)
      (by decide) (by decide)]
    decide
  · rw [blobDecrypt_any_payload [100] [49] _ (List.replicate 96 65) (List.range 16) 0 5
      (by decide) (by decide) (by decide) (by decide) (by decide) (by decide) (by decide)
      (by decide) (by decide)]
    decide
